import Mathlib

set_option maxHeartbeats 1000000
set_option maxRecDepth 4000

/-
Shallow embedding of the sphinxhp data module (src/data.py).

The embedding follows the source code of data.py:
  * `EItems`, `mkEntry`, `ECache` model the `Entry` class and its
    module-level `__entry_classcache__` (data.py lines 772-842).
    Both call sites of `Entry(...)` in the repository pass the string
    `'id'` as `primary_type`, so `mkEntry` is specialised to that value:
    the `__new__` lookup key is `items['id']` and the `__init__` store
    key is the string `'id'` itself.  Object identity is modelled by an
    allocation counter (`EObj.oid`).
  * `Db`, `get_epaths`, `expand_epath`, `get_data`, `initDb` model the
    `Database` / `SphinxDatabase` classes (data.py lines 848-1152).
    Python dicts are modelled as insertion-ordered association lists,
    matching the insertion-order semantics of dicts the code relies on.
  * `RTok`, `rmatch` model the regular expression built by
    `expand_epath` via `epath.replace('?', '.').replace('*', '.*?')`
    compiled with `re.IGNORECASE` and applied with `re.match` (which
    anchors at the start of the string only).  In the translated
    pattern both an original `?` and an original `.` become the regex
    `.` (any character except a newline) and `*` becomes `.*?` (a lazy
    run of such characters); all other characters of the epaths used by
    this program are regex-literal characters.
  * `DLE`/`DTE`/`TTE` and `getDefs` model `DataExtractor.get_defs`
    (data.py lines 645-759) over an already-parsed tree: a `<dl>`
    element with its `class` attribute, `<dt>` children (each with its
    `id` attribute, `<tt>` children and the `href` of its first `<a>`
    child) and the concatenated `itertext()` of its first `<dd>` child.
  * `check_database` and the writer constructors model
    `check_database` / `Writer.__init__` and the four writer
    subclasses (data.py lines 80-130, 193-207, 280-292, 405-437).
-/

/-- The items dict handed to `Entry(...)` by `DataExtractor.get_defs`:
id attribute (possibly absent, i.e. `None`), display name, class name,
description, since-version, deprecated-version and permalink. -/
structure EItems where
  id : Option String
  name : String
  classname : String
  description : String
  since : String
  deprecated : String
  link : String
deriving DecidableEq

/-- An `Entry` object: `oid` is the allocation identity of the Python
object (two constructions return the very same instance iff their
`oid`s agree), `items` the items dict it holds. -/
structure EObj where
  oid : Nat
  items : EItems
deriving DecidableEq

/-- The module-level `__entry_classcache__` dict together with an
allocation counter for fresh objects.  Dict keys are Python objects
that are either `None` or a string, modelled as `Option String`. -/
structure ECache where
  nextId : Nat
  table : List (Option String × EObj)
deriving DecidableEq

/-- The empty entry classcache of a fresh process. -/
def ECache.empty : ECache := ⟨0, []⟩

/-- Association-list lookup for the entry classcache. -/
def lookupO : List (Option String × EObj) → Option String → Option EObj
  | [], _ => none
  | (k, v) :: rest, key => if k = key then some v else lookupO rest key

/-- Association-list store (dict assignment) for the entry classcache:
overwriting keeps the original position, new keys append. -/
def setO : List (Option String × EObj) → Option String → EObj → List (Option String × EObj)
  | [], key, v => [(key, v)]
  | (k, w) :: rest, key, v =>
      if k = key then (k, v) :: rest else (k, w) :: setO rest key v

/-- `Entry(items, 'id')` (data.py lines 796-811): `__new__` looks up
`__entry_classcache__.get(items['id'])` and returns the cached object
when present (in which case `__init__` returns early because the object
already has an `items` attribute); otherwise a fresh object is
allocated and `__init__` stores it under the key `'id'` (the
`primary_type` string itself, faithfully reproducing the source's
`__entry_classcache__[primary_type] = self`). -/
def mkEntry (c : ECache) (items : EItems) : EObj × ECache :=
  match lookupO c.table items.id with
  | some obj => (obj, c)
  | none =>
      let obj : EObj := ⟨c.nextId, items⟩
      (obj, ⟨c.nextId + 1, setO c.table (some "id") obj⟩)

/-- A value stored in the database: a string scalar, an optional string
(the parsed sphinx version may be `None`), an integer (the entry
total), or an ordered list of entry items. -/
inductive DValue where
  | s : String → DValue
  | os : Option String → DValue
  | n : Int → DValue
  | entries : List EItems → DValue
deriving DecidableEq

/-- Errors raised by the database methods: `TypeError`, `ValueError`,
`InvalidStateError`. -/
inductive PyErr where
  | typeError : PyErr
  | valueError : PyErr
  | invalidState : PyErr
deriving DecidableEq

deriving instance DecidableEq for Except

/-- The `SphinxDatabase` state: site url, the insertion-ordered
`contents` dict, the `epaths` snapshot taken by `initialize`, the
running `total_entries` counter and the `initialized` flag. -/
structure Db where
  site_url : String
  contents : List (String × DValue)
  epaths : List String
  total_entries : Int
  initialized : Bool
deriving DecidableEq

/-- A freshly constructed, uninitialized database
(`Database.__init__`, data.py lines 886-898). -/
def Db.new (site_url : String) : Db :=
  ⟨site_url, [], [], -1, false⟩

/-- Association-list lookup for the contents dict. -/
def lookupC : List (String × DValue) → String → Option DValue
  | [], _ => none
  | (k, v) :: rest, key => if k = key then some v else lookupC rest key

/-- Association-list store (dict assignment) for the contents dict:
overwriting keeps the original position, new keys append. -/
def setC : List (String × DValue) → String → DValue → List (String × DValue)
  | [], key, v => [(key, v)]
  | (k, w) :: rest, key, v =>
      if k = key then (k, v) :: rest else (k, w) :: setC rest key v

/-- `self[key] = value` (`Database.__setitem__`). -/
def Db.setItem (db : Db) (k : String) (v : DValue) : Db :=
  { db with contents := setC db.contents k v }

/-- `SphinxDatabase.get_epaths` (data.py lines 1143-1152): raises
`InvalidStateError` before `initialize()` has completed, otherwise
returns the frozen epath snapshot. -/
def get_epaths (db : Db) : Except PyErr (List String) :=
  if db.initialized then Except.ok db.epaths else Except.error PyErr.invalidState

/-- A single token of the compiled pattern
`epath.replace('?', '.').replace('*', '.*?')`: a literal character, the
regex `.`, or the regex `.*?`. -/
inductive RTok where
  | lit : Char → RTok
  | dot : RTok
  | star : RTok
deriving DecidableEq

/-- Translate an epath pattern into the token list of the regex that
`expand_epath` compiles from it: `*` becomes `.*?`, `?` becomes `.`, a
literal `.` stays the regex `.`, every other character of an epath is a
regex-literal character. -/
def toRegex : List Char → List RTok
  | [] => []
  | c :: cs =>
      (if c = '*' then RTok.star
       else if c = '?' ∨ c = '.' then RTok.dot
       else RTok.lit c) :: toRegex cs

/-- The suffixes of the text that `.*?` can leave for the rest of the
pattern, in the order a lazy star tries them: consume nothing first,
then one more character at a time, stopping at a newline (the regex `.`
does not cross newlines). -/
def starSplits : List Char → List (List Char)
  | [] => [[]]
  | x :: t => (x :: t) :: (if x = '\n' then [] else starSplits t)

/-- `re.match(pat, s)` for the compiled pattern: does the token list
match some prefix of `s`?  Matching starts at the beginning of `s` and
is not anchored at the end; literals compare case-insensitively
(`re.IGNORECASE`); `.` consumes any single character except a newline;
`.*?` consumes any run of non-newline characters. -/
def rmatch : List RTok → List Char → Bool
  | [], _ => true
  | RTok.lit _ :: _, [] => false
  | RTok.lit c :: ps, x :: t => (c.toLower == x.toLower) && rmatch ps t
  | RTok.dot :: _, [] => false
  | RTok.dot :: ps, x :: t => (x != '\n') && rmatch ps t
  | RTok.star :: ps, xs => (starSplits xs).any (fun s => rmatch ps s)

/-- `re.match` of the regex compiled from pattern `p` against stored
key `s`. -/
def reMatchStart (p : String) (s : String) : Bool :=
  rmatch (toRegex p.data) s.data

/-- `'*' in epath or '?' in epath`. -/
def hasWild (p : String) : Bool :=
  p.data.any (fun c => c == '*' || c == '?')

/-- `SphinxDatabase.expand_epath` (data.py lines 1044-1061): a pattern
containing a wildcard is matched with `re.match` against every stored
epath, collecting the matches in stored order; a pattern without a
wildcard is returned as a singleton if stored, else `ValueError` is
raised. -/
def expand_epath (db : Db) (epath : String) : Except PyErr (List String) :=
  if hasWild epath then do
    let eps ← get_epaths db
    Except.ok (eps.filter (fun ep => reMatchStart epath ep))
  else do
    let eps ← get_epaths db
    if epath ∈ eps then Except.ok [epath] else Except.error PyErr.valueError

/-- One element of the flattened result list built by `get_data` for a
multi-match wildcard: a spliced-in entry, a scalar value appended
whole, or the `None` appended when a matched key raises `KeyError`. -/
inductive Cell where
  | val : DValue → Cell
  | ent : EItems → Cell
  | null : Cell
deriving DecidableEq

/-- `if isinstance(cur_data, list): result.extend(cur_data) else:
result.append(cur_data)`. -/
def flattenVal : DValue → List Cell
  | DValue.entries l => l.map Cell.ent
  | v => [Cell.val v]

/-- The possible results of `get_data`: the `None` returned when the
exact lookup raises `KeyError`, a raw stored value, or a flattened
list. -/
inductive GetRes where
  | noneRes : GetRes
  | raw : DValue → GetRes
  | flat : List Cell → GetRes
deriving DecidableEq

/-- `SphinxDatabase.get_data` (data.py lines 1066-1105).  The first
statement of the body raises `TypeError` whenever `epath` is not a
string — in particular for `epath=None`, so the `if epath is None`
branch of the source is unreachable.  For a string epath the pattern is
expanded; more than one match yields the flattened concatenation of the
matched values in stored order, otherwise the original `epath` string
itself is looked up in `contents`, with `KeyError` turned into `None`. -/
def get_data (db : Db) (epath : Option String) : Except PyErr GetRes :=
  match epath with
  | none => Except.error PyErr.typeError
  | some p => do
      let filtered ← expand_epath db p
      if 1 < filtered.length then
        Except.ok (GetRes.flat (filtered.foldl
          (fun acc fe =>
            acc ++ (match lookupC db.contents fe with
                    | some v => flattenVal v
                    | none => [Cell.null])) []))
      else
        match lookupC db.contents p with
        | some v => Except.ok (GetRes.raw v)
        | none => Except.ok GetRes.noneRes

/-- The extraction result of one source page, as returned by
`DataExtractor.get_defs`: an insertion-ordered mapping from definition
list class to the ordered items of the entries extracted for it. -/
abbrev PageDefs := List (String × List EItems)

/-- The body of the merge loop of `SphinxDatabase.initialize`
(data.py lines 1017-1032) for one definition class of one page: if the
key `data/type/<class>` already exists, only those new entries are
appended whose id (the value `Entry.__eq__` compares) does not occur in
the already-stored list, and the running total grows by their number;
otherwise the page's list is stored wholesale and the total grows by
its full length. -/
def mergeDefs (db : Db) (total : Int) (cls : String) (ents : List EItems) : Db × Int :=
  match lookupC db.contents ("data/type/" ++ cls) with
  | some (DValue.entries cur) =>
      (db.setItem ("data/type/" ++ cls)
         (DValue.entries
           (cur ++ ents.filter (fun e => ¬ cur.any (fun c => c.id = e.id)))),
       total + (ents.filter (fun e => ¬ cur.any (fun c => c.id = e.id))).length)
  | some _ => (db, total)
  | none => (db.setItem ("data/type/" ++ cls) (DValue.entries ents),
             total + ents.length)

/-- One step of the inner `for _def in defs` loop of `initialize`. -/
def mergeStep (acc : Db × Int) (kv : String × List EItems) : Db × Int :=
  mergeDefs acc.1 acc.2 kv.1 kv.2

/-- One step of the outer `for link in links` loop of `initialize`:
merge every definition class extracted from one page. -/
def mergePage (acc : Db × Int) (page : PageDefs) : Db × Int :=
  page.foldl mergeStep acc

/-- `SphinxDatabase.initialize` (data.py lines 994-1042), parametrised
by the sphinx version parsed from the start page and by the
`get_defs()` results of the registered source pages (both obtained via
network I/O in the source).  A database that is already initialized is
left untouched; otherwise the two metadata keys are stored, the pages
are merged starting from a running total of 2, the total is bumped once
more for the stats key itself and stored under
`metadata/stats/total_entries`, the epath snapshot is frozen and the
database is marked initialized. -/
def initDb (version : Option String) (pages : List PageDefs) (db : Db) : Db :=
  if db.initialized then db
  else
    let db2 := (db.setItem "metadata/sphinx/site_url"
                  (DValue.s (db.site_url ++ "/index.html"))).setItem
                 "metadata/sphinx/version" (DValue.os version)
    let acc := pages.foldl mergePage (db2, 2)
    let total := acc.2 + 1
    let db4 := acc.1.setItem "metadata/stats/total_entries" (DValue.n total)
    { db4 with epaths := db4.contents.map Prod.fst,
               total_entries := total,
               initialized := true }

/-- A `<tt>` child of a `<dt>` element: its `class` attribute and its
text content (`findtext` yields `None` for absent text only when the
element is absent; an element with no text yields the empty string,
modelled by `text = none` meaning no text node). -/
structure TTE where
  cls : Option String
  text : Option String
deriving DecidableEq

/-- A `<dt>` element: its `id` attribute, its `<tt>` children in
document order, and the `href` attribute of its first `<a>` child
(`none` when the term has no anchor). -/
structure DTE where
  id : Option String
  tts : List TTE
  href : Option String
deriving DecidableEq

/-- A `<dl>` element: its `class` attribute, its `<dt>` children in
document order, and the concatenated `itertext()` pieces of its first
`<dd>` child (`none` when there is no `<dd>`). -/
structure DLE where
  cls : Option String
  dts : List DTE
  ddTexts : Option (List String)
deriving DecidableEq

/-- Python's `str(x)` for an optional string: `None` prints as
`"None"`. -/
def pyStr : Option String → String
  | none => "None"
  | some s => s

/-- `dt.findtext('./tt')`: the text of the first `<tt>` child, the
empty string if that child has no text, `None` if there is no `<tt>`
child. -/
def findTT (dt : DTE) : Option String :=
  match dt.tts with
  | [] => none
  | t :: _ => some (t.text.getD "")

/-- The `for tt in tts` loop of `get_defs` (data.py lines 710-715):
fold over the `<tt>` children, remembering the text of the last one
classed `descname` and the text of the last one classed
`descclassname`. -/
def descNames (tts : List TTE) : String × String :=
  tts.foldl
    (fun acc tt =>
      if tt.cls = some "descname" then (tt.text.getD "", acc.2)
      else if tt.cls = some "descclassname" then (acc.1, tt.text.getD "")
      else acc)
    ("", "")

/-- The description assembled for the last term of a list
(data.py lines 731-736): the concatenated `itertext()` of the first
`<dd>` child, or the empty string if there is none. -/
def ddText (dl : DLE) : String :=
  match dl.ddTexts with
  | none => ""
  | some ts => ts.foldl (fun a s => a ++ s) ""

/-- Case-insensitive literal prefix match: consume `lit` from the front
of the text, returning the rest on success. -/
def litNoCase : List Char → List Char → Option (List Char)
  | [], rest => some rest
  | _ :: _, [] => none
  | p :: ps, x :: xs =>
      if p.toLower = x.toLower then litNoCase ps xs else none

/-- Match `\d+\.\d+` at the current position and return the captured
version string (the regex is greedy over digits, and digits and `.` are
disjoint, so no backtracking arises). -/
def verAt (cs : List Char) : Option String :=
  let d1 := cs.takeWhile Char.isDigit
  if d1.isEmpty then none
  else
    match cs.dropWhile Char.isDigit with
    | '.' :: r2 =>
        let d2 := r2.takeWhile Char.isDigit
        if d2.isEmpty then none
        else some (String.mk (d1 ++ '.' :: d2))
    | _ => none

/-- `re.search` of `<lit>(\d+\.\d+)` with `re.IGNORECASE` over the
text: try every start position from left to right. -/
def searchVersion (lit : List Char) : List Char → Option String
  | [] =>
      (match litNoCase lit [] with
       | some rest => verAt rest
       | none => none)
  | x :: t =>
      match litNoCase lit (x :: t) with
      | some rest =>
          (match verAt rest with
           | some v => some v
           | none => searchVersion lit t)
      | none => searchVersion lit t

/-- `re.search(SINCE_REGEX, desc)`: the version of a
`New in version X.Y` marker. -/
def findSince (desc : String) : Option String :=
  searchVersion "New in version ".data desc.data

/-- `re.search(DEPRECATED_REGEX, desc)`: the version of a
`Deprecated since version X.Y` marker. -/
def findDepr (desc : String) : Option String :=
  searchVersion "Deprecated since version ".data desc.data

/-- The per-term body of the `for i in range(0, dtslen)` loop of
`get_defs` (data.py lines 704-751): extract name and classname from the
`<tt>` children, take the term's own permalink (updating the
`last_link` state) or inherit the most recent one, use the shared
`see <last term>` hint as description except for the last term, whose
description is assembled from the `<dd>` block, and scan the
description for since/deprecated markers (`since` defaults to `0.1`,
`deprecated` to the empty string).  Returns the items dict passed to
`Entry(...)` together with the updated `last_link`. -/
def procDT (url : String) (dl : DLE) (i dtslen : Nat) (seeDesc : String)
    (dt : DTE) (lastLink : String) : EItems × String :=
  let nm := descNames dt.tts
  let link := match dt.href with
    | some h => url ++ h
    | none => lastLink
  let lastLink2 := match dt.href with
    | some h => url ++ h
    | none => lastLink
  let desc := if i = dtslen - 1 then ddText dl else seeDesc
  let since := (findSince desc).getD "0.1"
  let depr := (findDepr desc).getD ""
  (⟨dt.id, nm.1, nm.2, desc, since, depr, link⟩, lastLink2)

/-- `entries[dl_class].append(entry)` with creation of the key on first
use (data.py lines 753-756), over an insertion-ordered dict keyed by
the `class` attribute of the definition list. -/
def addToClass : List (Option String × List EObj) → Option String → EObj →
    List (Option String × List EObj)
  | [], k, e => [(k, [e])]
  | (k2, l) :: rest, k, e =>
      if k2 = k then (k2, l ++ [e]) :: rest
      else (k2, l) :: addToClass rest k e

/-- The mutable state of one `get_defs` run: the cross-list `last_link`
variable, the process-wide entry classcache, and the `entries` result
dict. -/
structure ExtState where
  lastLink : String
  cache : ECache
  entries : List (Option String × List EObj)
deriving DecidableEq

/-- The state at the top of `get_defs` in a fresh process: empty
`last_link`, empty classcache, empty result dict. -/
def ExtState.start : ExtState := ⟨"", ECache.empty, []⟩

/-- Processing of one `<dl>` element by `get_defs` (data.py lines
693-758): when the list has more than one term the display name of the
last term yields the shared `see <name>` hint (it is unused otherwise),
then every term is processed in document order, each resulting items
dict is passed through the `Entry` flyweight constructor, and the
resulting object is appended under the list's class. -/
def procDL (url : String) (st : ExtState) (dl : DLE) : ExtState :=
  let dts := dl.dts
  let n := dts.length
  let seeDesc := match dts.getLast? with
    | some lastDt => "see " ++ pyStr (findTT lastDt)
    | none => ""
  (dts.foldl
    (fun (acc : ExtState × Nat) dt =>
      let st2 := acc.1
      let i := acc.2
      let r := procDT url dl i n seeDesc dt st2.lastLink
      let e := mkEntry st2.cache r.1
      (⟨r.2, e.2, addToClass st2.entries dl.cls e.1⟩, i + 1))
    (st, 0)).1

/-- `DataExtractor.get_defs` over the definition lists found by the
xpath query, starting from a given extraction state. -/
def getDefs (url : String) (dls : List DLE) (st : ExtState) : ExtState :=
  dls.foldl (procDL url) st

/-- The items of the entries extracted for one definition-list class. -/
def defsFor (st : ExtState) (k : Option String) : List EItems :=
  match st.entries.lookup k with
  | some l => l.map EObj.items
  | none => []

/-- `check_database` (data.py lines 80-90): `ValueError` when the
database handle is `None` or the database is not initialized. -/
def check_database (database : Option Db) : Except PyErr Db :=
  match database with
  | none => Except.error PyErr.valueError
  | some db =>
      if db.initialized then Except.ok db else Except.error PyErr.valueError

/-- `Writer.__init__` (data.py lines 107-116): validate the database
handle and record it together with the output directory. -/
structure WriterBase where
  database : Db
  outdir : String
deriving DecidableEq

/-- The shared part of every writer constructor. -/
def writerInit (database : Option Db) (outdir : String) : Except PyErr WriterBase := do
  let db ← check_database database
  Except.ok ⟨db, outdir⟩

/-- `CSVWriter.__init__` (data.py lines 283-291): base construction
plus the csv defaults. -/
structure CSVWriterS where
  base : WriterBase
  colsep : String
  header : List String
deriving DecidableEq

/-- Construct a `CSVWriter`. -/
def csvWriterInit (database : Option Db) (outdir : String) : Except PyErr CSVWriterS := do
  let b ← writerInit database outdir
  Except.ok ⟨b, ",", ["name", "value"]⟩

/-- `HTMLWriter.__init__` (data.py lines 421-437): base construction
plus the template globals, which query the database for the sphinx
version. -/
structure HTMLWriterS where
  base : WriterBase
  sphinxVersion : GetRes
deriving DecidableEq

/-- Construct an `HTMLWriter`. -/
def htmlWriterInit (database : Option Db) (outdir : String) : Except PyErr HTMLWriterS := do
  let b ← writerInit database outdir
  let v ← get_data b.database (some "metadata/sphinx/version")
  Except.ok ⟨b, v⟩

/-- `TextMateWriter.__init__` (data.py lines 130-132). -/
structure TMWriterS where
  base : WriterBase
deriving DecidableEq

/-- Construct a `TextMateWriter`. -/
def tmWriterInit (database : Option Db) (outdir : String) : Except PyErr TMWriterS := do
  let b ← writerInit database outdir
  Except.ok ⟨b⟩

/-- `ListWriter.__init__` (data.py lines 205-207). -/
structure ListWriterS where
  base : WriterBase
deriving DecidableEq

/-- Construct a `ListWriter`. -/
def listWriterInit (database : Option Db) (outdir : String) : Except PyErr ListWriterS := do
  let b ← writerInit database outdir
  Except.ok ⟨b⟩

/-- Glob matching as the specification describes `expandKeys`: `*`
matches zero or more of any character, `?` matches exactly one of any
character, every other character matches itself case-insensitively, and
the whole pattern must match the whole key.  Modelled from the spec's
words, to be compared with the source-derived `rmatch`. -/
def globSplits : List Char → List (List Char)
  | [] => [[]]
  | x :: t => (x :: t) :: globSplits t

/-- Full-match glob semantics per the specification (see
`globSplits`). -/
def specGlobMatch : List Char → List Char → Bool
  | [], xs => xs.isEmpty
  | '*' :: ps, xs => (globSplits xs).any (fun s => specGlobMatch ps s)
  | '?' :: ps, xs =>
      (match xs with
       | [] => false
       | _ :: t => specGlobMatch ps t)
  | c :: ps, xs =>
      (match xs with
       | [] => false
       | x :: t => (c.toLower == x.toLower) && specGlobMatch ps t)

/-- The number of entries of a stored value: the length of an entry
list, zero for scalars. -/
def valSize : DValue → Nat
  | DValue.entries l => l.length
  | _ => 0

/-- The total number of entries held in entry lists across the whole
contents dict. -/
def dataEntryCount (contents : List (String × DValue)) : Nat :=
  (contents.map (fun kv => valSize kv.2)).sum

/-- The number of entries held under a given key (zero when the key is
absent or holds a scalar). -/
def oldSize (l : List (String × DValue)) (k : String) : Nat :=
  match lookupC l k with
  | some w => valSize w
  | none => 0

/-- All entry ids occurring in the extraction results of all pages, in
traversal order. -/
def pageIds (pages : List PageDefs) : List (Option String) :=
  pages.foldl (fun acc page => page.foldl (fun a kv => a ++ kv.2.map EItems.id) acc) []

/-- The number of strictly unique entry ids across all source pages
and categories.  Modelled from the spec's words ("the count of strictly
unique entries by id across all merged categories"), to be compared
with the total the source code computes. -/
def specUniqueIdCount (pages : List PageDefs) : Nat :=
  (pageIds pages).dedup.length

/-- The contribution of one matched epath to the flattened result of a
multi-match `get_data` call: the spliced entry list or the appended
scalar, and the appended `None` when the key lookup fails. -/
def cellsOf (db : Db) (fe : String) : List Cell :=
  match lookupC db.contents fe with
  | some v => flattenVal v
  | none => [Cell.null]

/-- The result of the exact-lookup fallback branch of `get_data`: the
raw stored value of the queried string itself, or `None` when it is not
a stored key. -/
def exactFetch (db : Db) (p : String) : GetRes :=
  match lookupC db.contents p with
  | some v => GetRes.raw v
  | none => GetRes.noneRes

/-- The invariant that the merge loop of `initialize` maintains: the
running total is 2 plus the number of entries stored so far, and the
stats key has not been stored yet. -/
def InvQ (acc : Db × Int) : Prop :=
  acc.2 = 2 + (dataEntryCount acc.1.contents : Int) ∧
  lookupC acc.1.contents "metadata/stats/total_entries" = none

/-- Items with id `x` and name `a`. -/
def itemA : EItems := ⟨some "x", "a", "", "", "0.1", "", ""⟩

/-- Items with the same id `x` but name `b`. -/
def itemB : EItems := ⟨some "x", "b", "", "", "0.1", "", ""⟩

/-- A single extracted role entry. -/
def roleEntry : EItems := ⟨some "role-x", "x", "", "d", "0.1", "", "L"⟩

/-- A database initialized from one page containing one role entry. -/
def sampleDb : Db := initDb (some "1.0") [[("role", [roleEntry])]] (Db.new "u")

/-- One page whose role list contains two entries with the same id. -/
def dupPages : List PageDefs := [[("role", [itemA, itemB])]]

/-- A database initialized from `dupPages`. -/
def dupDb : Db := initDb (some "1.0") dupPages (Db.new "u")

/-- An entry of the class `roleextra`. -/
def extraEntry : EItems := ⟨some "r1", "n", "", "", "0.1", "", ""⟩

/-- A database whose only data key is `data/type/roleextra`. -/
def extraDb : Db := initDb (some "1.0") [[("roleextra", [extraEntry])]] (Db.new "u")

/-- A definition term with an id, a `descname` code element and its own
permalink anchor. -/
def termOne : DTE := ⟨some "t1", [⟨some "descname", some "term1"⟩], some "#t1"⟩

/-- A second definition term without a permalink anchor. -/
def termTwo : DTE := ⟨some "t2", [⟨some "descname", some "term2"⟩], none⟩

/-- A definition list with two terms sharing one description block,
where only the first term carries a permalink anchor. -/
def sharedDl : DLE := ⟨some "role", [termOne, termTwo], some ["Shared description."]⟩

/-- C1: the claim says two constructions of an `Entry` with the same id
yield the very same canonical instance.  The code violates this:
`__init__` stores the object under the key `'id'` (the `primary_type`
string) while `__new__` looks up `items['id']` (the id value), so the
cache never hits and a second construction with the same id value `x`
(and a different name) allocates a fresh, distinct instance. -/
theorem entry_same_id_distinct_instances :
    (mkEntry (mkEntry ECache.empty itemA).2 itemB).1.oid ≠
        (mkEntry ECache.empty itemA).1.oid ∧
    itemB.id = itemA.id := by decide

/-- C2: the claim says `queryData(None)` returns every stored value in
stored order.  The code raises `TypeError` instead, for every database
(also for the initialized `sampleDb`): the `isinstance` guard at the
top of `get_data` precedes the documented `epath is None` branch, which
is therefore unreachable. -/
theorem get_data_none_raises_type_error :
    (∀ db : Db, get_data db none = Except.error PyErr.typeError) ∧
    sampleDb.initialized = true :=
  ⟨fun _ => rfl, by decide⟩

/-- C6: `initialize()` is idempotent: it always leaves the database in
the initialized state, and a second call (whatever extraction results
it would have produced) returns the store completely unchanged, so
`queryData(None)` yields identical output after two calls and after
one. -/
theorem initialize_idempotent (v v2 : Option String)
    (pages pages2 : List PageDefs) (db : Db) :
    (initDb v pages db).initialized = true ∧
    initDb v2 pages2 (initDb v pages db) = initDb v pages db ∧
    get_data (initDb v2 pages2 (initDb v pages db)) none =
      get_data (initDb v pages db) none := by
  have h1 : (initDb v pages db).initialized = true := by
    unfold initDb
    split
    next h => exact h
    next => rfl
  have h2 : ∀ X : Db, X.initialized = true → initDb v2 pages2 X = X := by
    intro X hX
    unfold initDb
    simp [hX]
  exact ⟨h1, h2 _ h1, by rw [h2 _ h1]⟩

/-- C10: constructing any of the four writers fails with a `ValueError`
when the database handle is `None` or refers to a database whose
`initialize()` has not completed, because `Writer.__init__` routes
every construction through `check_database`. -/
theorem writers_require_initialized_database (d : Option Db) (outdir : String)
    (h : d = none ∨ ∃ db, d = some db ∧ db.initialized = false) :
    csvWriterInit d outdir = Except.error PyErr.valueError ∧
    htmlWriterInit d outdir = Except.error PyErr.valueError ∧
    tmWriterInit d outdir = Except.error PyErr.valueError ∧
    listWriterInit d outdir = Except.error PyErr.valueError := by
  have hcd : check_database d = Except.error PyErr.valueError := by
    rcases h with rfl | ⟨db, rfl, hdb⟩
    · rfl
    · simp [check_database, hdb]
  have hw : writerInit d outdir = Except.error PyErr.valueError := by
    unfold writerInit
    rw [hcd]
    rfl
  refine ⟨?_, ?_, ?_, ?_⟩ <;>
    first
      | (unfold csvWriterInit; rw [hw]; rfl)
      | (unfold htmlWriterInit; rw [hw]; rfl)
      | (unfold tmWriterInit; rw [hw]; rfl)
      | (unfold listWriterInit; rw [hw]; rfl)

/-- Witness for C10 at the concrete input `database=None`. -/
theorem writers_require_initialized_database_w :
    csvWriterInit none "out" = Except.error PyErr.valueError ∧
    htmlWriterInit none "out" = Except.error PyErr.valueError ∧
    tmWriterInit none "out" = Except.error PyErr.valueError ∧
    listWriterInit none "out" = Except.error PyErr.valueError :=
  writers_require_initialized_database none "out" (Or.inl rfl)

/-- C8: on a database whose `initialize()` has not completed,
`get_epaths`, `expand_epath` and `get_data` with a string pattern all
fail with `InvalidStateError` — but `get_data(None)` fails with
`TypeError` instead of the claimed InvalidState condition, because the
`isinstance` guard fires before the (intended, unreachable)
`epath is None` path could ever reach `get_epaths`. -/
theorem reads_before_initialize_fail (db : Db) (p : String)
    (h : db.initialized = false) :
    get_epaths db = Except.error PyErr.invalidState ∧
    expand_epath db p = Except.error PyErr.invalidState ∧
    get_data db (some p) = Except.error PyErr.invalidState ∧
    get_data db none = Except.error PyErr.typeError := by
  have hep : get_epaths db = Except.error PyErr.invalidState := by
    simp [get_epaths, h]
  have hexp : expand_epath db p = Except.error PyErr.invalidState := by
    unfold expand_epath
    rw [hep]
    split <;> rfl
  refine ⟨hep, hexp, ?_, rfl⟩
  simp only [get_data]
  rw [hexp]
  rfl

/-- Witness for C8 at a concrete uninitialized database. -/
theorem reads_before_initialize_fail_w :
    get_epaths (Db.new "u") = Except.error PyErr.invalidState ∧
    expand_epath (Db.new "u") "data/*" = Except.error PyErr.invalidState ∧
    get_data (Db.new "u") (some "data/*") = Except.error PyErr.invalidState ∧
    get_data (Db.new "u") none = Except.error PyErr.typeError :=
  reads_before_initialize_fail (Db.new "u") "data/*" rfl

/-- C7 counterexample: the claim says a wildcard pattern that matches
no stored key fails with a ValidityError; on the initialized `sampleDb`
the pattern `zzz*` matches nothing, yet `expand_epath` silently returns
the empty list instead of an error. -/
theorem wildcard_no_match_returns_empty_list :
    expand_epath sampleDb "zzz*" = Except.ok [] ∧
    (Except.ok ([] : List String) : Except PyErr (List String)) ≠
      Except.error PyErr.valueError := by decide

/-- C7 amended: on an initialized database a non-wildcard pattern
returns the singleton if stored and fails with `ValueError` otherwise,
while a wildcard pattern that matches no stored key returns the empty
list without error. -/
theorem expand_epath_error_behaviour (db : Db) (p : String)
    (hi : db.initialized = true) :
    (hasWild p = false → p ∈ db.epaths → expand_epath db p = Except.ok [p]) ∧
    (hasWild p = false → p ∉ db.epaths →
       expand_epath db p = Except.error PyErr.valueError) ∧
    (hasWild p = true →
       db.epaths.filter (fun ep => reMatchStart p ep) = [] →
       expand_epath db p = Except.ok []) := by
  have hep : get_epaths db = Except.ok db.epaths := by
    simp [get_epaths, hi]
  refine ⟨?_, ?_, ?_⟩
  · intro hw hmem
    unfold expand_epath
    rw [hw, hep]
    show (if p ∈ db.epaths then Except.ok [p]
          else Except.error PyErr.valueError) = Except.ok [p]
    simp [hmem]
  · intro hw hmem
    unfold expand_epath
    rw [hw, hep]
    show (if p ∈ db.epaths then Except.ok [p]
          else Except.error PyErr.valueError) = Except.error PyErr.valueError
    simp [hmem]
  · intro hw hfil
    unfold expand_epath
    rw [hw, hep]
    show Except.ok (db.epaths.filter (fun ep => reMatchStart p ep)) = Except.ok []
    rw [hfil]

/-- Witness for C7 at the concrete initialized `sampleDb`. -/
theorem expand_epath_error_behaviour_w :
    expand_epath sampleDb "data/type/role" = Except.ok ["data/type/role"] ∧
    expand_epath sampleDb "nope" = Except.error PyErr.valueError ∧
    expand_epath sampleDb "zzz*" = Except.ok [] :=
  ⟨(expand_epath_error_behaviour sampleDb "data/type/role" (by decide)).1
      (by decide) (by decide),
   (expand_epath_error_behaviour sampleDb "nope" (by decide)).2.1
      (by decide) (by decide),
   (expand_epath_error_behaviour sampleDb "zzz*" (by decide)).2.2
      (by decide) (by decide)⟩

/-- Helper: the left fold that appends per-key cell lists equals the
join of the mapped lists. -/
theorem foldl_append_join {α : Type} (g : α → List Cell) :
    ∀ (l : List α) (acc : List Cell),
      l.foldl (fun a x => a ++ g x) acc = acc ++ (l.map g).flatten
  | [], acc => by simp
  | x :: t, acc => by
      simp [foldl_append_join g t, List.append_assoc]

/-- Helper: `get_data` on a string pattern, given the expansion
result. -/
theorem get_data_some_eq (db : Db) (p : String) (ms : List String)
    (hm : expand_epath db p = Except.ok ms) :
    get_data db (some p) =
      if 1 < ms.length then
        Except.ok (GetRes.flat (ms.foldl
          (fun acc fe =>
            acc ++ (match lookupC db.contents fe with
                    | some v => flattenVal v
                    | none => [Cell.null])) []))
      else
        match lookupC db.contents p with
        | some v => Except.ok (GetRes.raw v)
        | none => Except.ok GetRes.noneRes := by
  simp only [get_data]
  rw [hm]
  rfl

/-- C3 counterexample: on the initialized `sampleDb` the wildcard
pattern `data/*` matches exactly one stored key whose raw value is the
role entry list, yet `get_data` returns `None` instead of that value:
the single-match branch looks up the pattern string itself, which is
not a stored key. -/
theorem single_match_wildcard_returns_none :
    expand_epath sampleDb "data/*" = Except.ok ["data/type/role"] ∧
    lookupC sampleDb.contents "data/type/role" =
      some (DValue.entries [roleEntry]) ∧
    get_data sampleDb (some "data/*") = Except.ok GetRes.noneRes ∧
    GetRes.noneRes ≠ GetRes.raw (DValue.entries [roleEntry]) := by decide

/-- C3 amended: when the pattern expands to more than one stored key,
`get_data` returns the flattened concatenation of the matched values in
stored order (entry lists spliced, scalars appended); when it expands
to at most one key, `get_data` performs an exact lookup of the pattern
string itself, so a genuine wildcard pattern (never itself a stored
key) yields `None` rather than the matched key's raw value. -/
theorem get_data_wildcard_behaviour (db : Db) (p : String) (ms : List String)
    (hm : expand_epath db p = Except.ok ms) :
    (1 < ms.length →
       get_data db (some p) =
         Except.ok (GetRes.flat ((ms.map (cellsOf db)).flatten))) ∧
    (ms.length ≤ 1 →
       get_data db (some p) = Except.ok (exactFetch db p)) := by
  have hge := get_data_some_eq db p ms hm
  constructor
  · intro hlen
    rw [hge, if_pos hlen]
    have hb : (fun (acc : List Cell) fe =>
        acc ++ (match lookupC db.contents fe with
                | some v => flattenVal v
                | none => [Cell.null])) =
        fun (acc : List Cell) fe => acc ++ cellsOf db fe := rfl
    rw [hb, foldl_append_join (cellsOf db) ms []]
    simp
  · intro hlen
    have hn : ¬ 1 < ms.length := by omega
    rw [hge, if_neg hn]
    cases hc : lookupC db.contents p <;> simp [exactFetch, hc]

/-- Witness for C3 on the concrete `sampleDb`: the three-key match
`metadata*` flattens, the single-key match `data/*` falls back to the
exact lookup of the pattern. -/
theorem get_data_wildcard_behaviour_w :
    get_data sampleDb (some "metadata*") =
      Except.ok (GetRes.flat ((["metadata/sphinx/site_url",
        "metadata/sphinx/version",
        "metadata/stats/total_entries"].map (cellsOf sampleDb)).flatten)) ∧
    get_data sampleDb (some "data/*") =
      Except.ok (exactFetch sampleDb "data/*") :=
  ⟨(get_data_wildcard_behaviour sampleDb "metadata*"
      ["metadata/sphinx/site_url", "metadata/sphinx/version",
       "metadata/stats/total_entries"] (by decide)).1 (by decide),
   (get_data_wildcard_behaviour sampleDb "data/*" ["data/type/role"]
      (by decide)).2 (by decide)⟩

/-- Helper: a trailing lazy star matches every remaining text. -/
theorem rmatch_star_nil (cs : List Char) : rmatch [RTok.star] cs = true := by
  cases cs with
  | nil => rfl
  | cons x t => simp [rmatch, starSplits]

/-- Helper: the list of star splits is never empty. -/
theorem exists_mem_starSplits (cs : List Char) : ∃ x, x ∈ starSplits cs := by
  cases cs with
  | nil => exact ⟨[], by simp [starSplits]⟩
  | cons x t => exact ⟨x :: t, by simp [starSplits]⟩

/-- Helper: the compiled regex of the pattern `data/*` matches a key
(in the prefix-anchored sense of `re.match`) exactly when the
lowercased key starts with `data/`. -/
theorem rmatch_dataStar (cs : List Char) :
    rmatch (toRegex "data/*".data) cs = true ↔
      "data/".data <+: cs.map Char.toLower := by
  have htr : toRegex "data/*".data =
      [RTok.lit 'd', RTok.lit 'a', RTok.lit 't', RTok.lit 'a',
       RTok.lit '/', RTok.star] := by decide
  rw [htr]
  obtain _ | ⟨c1, cs⟩ := cs
  · simp [rmatch]
  obtain _ | ⟨c2, cs⟩ := cs
  · simp [rmatch, List.cons_prefix_cons]
  obtain _ | ⟨c3, cs⟩ := cs
  · simp [rmatch, List.cons_prefix_cons]
  obtain _ | ⟨c4, cs⟩ := cs
  · simp [rmatch, List.cons_prefix_cons]
  obtain _ | ⟨c5, cs⟩ := cs
  · simp [rmatch, List.cons_prefix_cons]
  simp [rmatch, rmatch_star_nil, List.cons_prefix_cons,
    (show Char.toLower 'd' = 'd' by decide),
    (show Char.toLower 'a' = 'a' by decide),
    (show Char.toLower 't' = 't' by decide),
    (show Char.toLower '/' = '/' by decide)]
  intro _ _ _ _ _
  exact exists_mem_starSplits cs

/-- C5 counterexample: the claim says `expandKeys` uses glob semantics
(`?` matching exactly one character, full-pattern match).  On the
initialized `extraDb` the pattern `data/type/role?` glob-matches no
stored key, yet `expand_epath` returns `data/type/roleextra`: the
compiled regex is applied with `re.match`, which only anchors at the
start, so the five extra characters after `role?` are ignored. -/
theorem expand_epath_overmatches_glob :
    expand_epath extraDb "data/type/role?" =
      Except.ok ["data/type/roleextra"] ∧
    specGlobMatch "data/type/role?".data "data/type/roleextra".data = false := by
  decide

/-- C5 amended: on an initialized database a wildcard pattern is
matched against the stored keys with a start-anchored, case-insensitive
regex in which `*` matches a lazy run of non-newline characters and
both `?` and a literal `.` match any single non-newline character, and
the matches are returned in stored order; in particular
`expandKeys("data/*")` returns exactly the stored keys whose lowercased
text starts with `data/`. -/
theorem expand_epath_is_anchored_regex (db : Db) (p : String)
    (hw : hasWild p = true) (hi : db.initialized = true) :
    expand_epath db p =
      Except.ok (db.epaths.filter (fun ep => reMatchStart p ep)) ∧
    (∀ k : String, reMatchStart "data/*" k = true ↔
       "data/".data <+: k.data.map Char.toLower) := by
  constructor
  · have hep : get_epaths db = Except.ok db.epaths := by
      simp [get_epaths, hi]
    unfold expand_epath
    rw [hw, hep]
    rfl
  · intro k
    exact rmatch_dataStar k.data

/-- Witness for C5 on the concrete `sampleDb` and the key
`DATA/type`. -/
theorem expand_epath_is_anchored_regex_w :
    expand_epath sampleDb "data/*" =
      Except.ok (sampleDb.epaths.filter (fun ep => reMatchStart "data/*" ep)) ∧
    (reMatchStart "data/*" "DATA/type" = true ↔
       "data/".data <+: "DATA/type".data.map Char.toLower) :=
  ⟨(expand_epath_is_anchored_regex sampleDb "data/*" (by decide) (by decide)).1,
   (expand_epath_is_anchored_regex sampleDb "data/*" (by decide) (by decide)).2
     "DATA/type"⟩

/-- Helper: lookup after a dict store. -/
theorem lookupC_setC (l : List (String × DValue)) (k k2 : String) (v : DValue) :
    lookupC (setC l k v) k2 = if k = k2 then some v else lookupC l k2 := by
  induction l with
  | nil => simp [setC, lookupC]
  | cons h t ih =>
      obtain ⟨k3, w⟩ := h
      by_cases e : k3 = k
      · subst e
        by_cases e2 : k3 = k2 <;> simp [setC, lookupC, e2]
      · by_cases e2 : k3 = k2
        · subst e2
          have hne : ¬ k = k3 := fun hq => e hq.symm
          simp [setC, e, lookupC, hne]
        · simp [setC, e, lookupC, e2, ih]


/-- Helper: a cons cell with a different key does not affect the stored
size under `k`. -/
theorem oldSize_cons_ne (k3 : String) (w : DValue) (t : List (String × DValue))
    (k : String) (e : ¬ k3 = k) :
    oldSize ((k3, w) :: t) k = oldSize t k := by
  simp [oldSize, lookupC, e]

/-- Helper: a cons cell with the key `k` itself stores its own value's
size. -/
theorem oldSize_cons_eq (k3 : String) (w : DValue) (t : List (String × DValue))
    (k : String) (e : k3 = k) :
    oldSize ((k3, w) :: t) k = valSize w := by
  simp [oldSize, lookupC, e]

/-- Helper: storing a value changes the entry count by the size of the
new value minus the size of the value it replaces (stated
additively). -/
theorem dataEntryCount_setC (l : List (String × DValue)) (k : String) (v : DValue) :
    dataEntryCount (setC l k v) + oldSize l k = dataEntryCount l + valSize v := by
  induction l with
  | nil => simp [setC, lookupC, dataEntryCount, oldSize]
  | cons h t ih =>
      obtain ⟨k3, w⟩ := h
      by_cases e : k3 = k
      · subst e
        simp [setC, lookupC, dataEntryCount, oldSize]
        omega
      · rw [oldSize_cons_ne k3 w t k e]
        simp only [setC, e, if_false, ite_false, dataEntryCount, List.map_cons,
          List.sum_cons]
        simp only [dataEntryCount] at ih
        omega

/-- Helper: a data key never collides with the stats key. -/
theorem statsKey_ne (cls : String) :
    ("data/type/" ++ cls) ≠ "metadata/stats/total_entries" := by
  intro h
  have h2 : ("data/type/" ++ cls).data = "metadata/stats/total_entries".data := by
    rw [h]
  rw [String.data_append] at h2
  have h3 : ("data/type/".data ++ cls.data).head? = some 'd' := rfl
  rw [h2] at h3
  exact absurd h3 (by decide)

/-- Helper: one merge step preserves the initialize invariant. -/
theorem mergeDefs_invQ (db : Db) (total : Int) (cls : String) (ents : List EItems)
    (h : InvQ (db, total)) : InvQ (mergeDefs db total cls ents) := by
  obtain ⟨h1, h2⟩ := h
  simp only [InvQ] at h1 h2 ⊢
  unfold mergeDefs
  split
  · rename_i cur heq
    dsimp only [Db.setItem]
    constructor
    · have hc := dataEntryCount_setC db.contents ("data/type/" ++ cls)
        (DValue.entries
          (cur ++ ents.filter (fun e => ¬ cur.any (fun c => c.id = e.id))))
      have ho : oldSize db.contents ("data/type/" ++ cls) = cur.length := by
        simp [oldSize, heq, valSize]
      rw [ho] at hc
      simp only [valSize, List.length_append] at hc
      omega
    · simp [lookupC_setC, statsKey_ne cls, h2]
  · exact ⟨h1, h2⟩
  · rename_i heq
    dsimp only [Db.setItem]
    constructor
    · have hc := dataEntryCount_setC db.contents ("data/type/" ++ cls)
        (DValue.entries ents)
      have ho : oldSize db.contents ("data/type/" ++ cls) = 0 := by
        simp [oldSize, heq]
      rw [ho] at hc
      simp only [valSize] at hc
      omega
    · simp [lookupC_setC, statsKey_ne cls, h2]

/-- Helper: merging one page preserves the initialize invariant. -/
theorem mergePage_invQ (page : PageDefs) :
    ∀ acc : Db × Int, InvQ acc → InvQ (mergePage acc page) := by
  induction page with
  | nil => intro acc h; exact h
  | cons kv t ih =>
      intro acc h
      have h2 : InvQ (mergeStep acc kv) := by
        obtain ⟨db, total⟩ := acc
        exact mergeDefs_invQ db total kv.1 kv.2 h
      exact ih (mergeStep acc kv) h2

/-- Helper: merging all pages preserves the initialize invariant. -/
theorem foldPages_invQ (pages : List PageDefs) :
    ∀ acc : Db × Int, InvQ acc → InvQ (pages.foldl mergePage acc) := by
  induction pages with
  | nil => intro acc h; exact h
  | cons pg t ih =>
      intro acc h
      exact ih (mergePage acc pg) (mergePage_invQ pg acc h)

/-- Helper: the contents of a freshly initialized database are the
merged contents with the stats key stored last. -/
theorem initDb_stats (v : Option String) (pages : List PageDefs) (db : Db)
    (h : db.initialized = false) :
    (initDb v pages db).contents =
      setC (pages.foldl mergePage
          ((db.setItem "metadata/sphinx/site_url"
              (DValue.s (db.site_url ++ "/index.html"))).setItem
            "metadata/sphinx/version" (DValue.os v), 2)).1.contents
        "metadata/stats/total_entries"
        (DValue.n ((pages.foldl mergePage
          ((db.setItem "metadata/sphinx/site_url"
              (DValue.s (db.site_url ++ "/index.html"))).setItem
            "metadata/sphinx/version" (DValue.os v), 2)).2 + 1)) := by
  unfold initDb
  rw [h]
  rfl

/-- C4 counterexample: the claim says `metadata/stats/total_entries`
equals the number of strictly unique entry ids across all merged pages
and categories plus 3.  One page listing two value-equal entries (the
same id `x`, under one class) is stored wholesale by the first
assignment to the key, so the code records a total of 5, while the
claim's count is 1 unique id + 2 metadata keys + 1 stats key = 4. -/
theorem total_entries_double_counts :
    lookupC dupDb.contents "metadata/stats/total_entries" =
      some (DValue.n 5) ∧
    specUniqueIdCount dupPages = 1 ∧
    (5 : Int) ≠ 1 + 2 + 1 := by decide

/-- C4 amended: after `initialize()` the value stored under
`metadata/stats/total_entries` equals 3 (the two metadata keys plus the
stats key itself) plus the total number of entries stored across all
`data/type/<class>` lists, where the merge appends an entry to an
existing category only if no entry with an equal id is already stored
in that same category — duplicates within a first assignment or across
different categories are all counted. -/
theorem total_entries_counts_stored_entries (u : String) (v : Option String)
    (pages : List PageDefs) :
    lookupC (initDb v pages (Db.new u)).contents "metadata/stats/total_entries" =
      some (DValue.n
        (3 + (dataEntryCount (initDb v pages (Db.new u)).contents : Int))) := by
  have hco := initDb_stats v pages (Db.new u) rfl
  have hbc : (((Db.new u).setItem "metadata/sphinx/site_url"
      (DValue.s ((Db.new u).site_url ++ "/index.html"))).setItem
      "metadata/sphinx/version" (DValue.os v)).contents =
      [("metadata/sphinx/site_url",
         DValue.s ((Db.new u).site_url ++ "/index.html")),
       ("metadata/sphinx/version", DValue.os v)] := by
    simp [Db.setItem, Db.new, setC,
      (show ¬ ("metadata/sphinx/site_url" = "metadata/sphinx/version") by decide)]
  have hbase : InvQ (((Db.new u).setItem "metadata/sphinx/site_url"
      (DValue.s ((Db.new u).site_url ++ "/index.html"))).setItem
      "metadata/sphinx/version" (DValue.os v), 2) := by
    simp only [InvQ]
    constructor
    · rw [hbc]
      simp [dataEntryCount, valSize]
    · rw [hbc]
      simp [lookupC,
        (show ¬ ("metadata/sphinx/site_url" = "metadata/stats/total_entries")
          by decide),
        (show ¬ ("metadata/sphinx/version" = "metadata/stats/total_entries")
          by decide)]
  have hacc := foldPages_invQ pages _ hbase
  obtain ⟨ha1, ha2⟩ := hacc
  have hc := dataEntryCount_setC
    (pages.foldl mergePage (((Db.new u).setItem "metadata/sphinx/site_url"
        (DValue.s ((Db.new u).site_url ++ "/index.html"))).setItem
        "metadata/sphinx/version" (DValue.os v), 2)).1.contents
    "metadata/stats/total_entries"
    (DValue.n ((pages.foldl mergePage (((Db.new u).setItem "metadata/sphinx/site_url"
        (DValue.s ((Db.new u).site_url ++ "/index.html"))).setItem
        "metadata/sphinx/version" (DValue.os v), 2)).2 + 1))
  have ho : oldSize
      (pages.foldl mergePage (((Db.new u).setItem "metadata/sphinx/site_url"
          (DValue.s ((Db.new u).site_url ++ "/index.html"))).setItem
          "metadata/sphinx/version" (DValue.os v), 2)).1.contents
      "metadata/stats/total_entries" = 0 := by
    simp [oldSize, ha2]
  rw [ho] at hc
  simp only [valSize] at hc
  rw [hco, lookupC_setC, if_pos rfl]
  congr 2
  omega

/-- C9: for a definition list with two terms sharing one description
block, where only the first term carries a permalink anchor (and the
second term's id is not literally the string `id`, so the entry
classcache quirk does not interfere), extraction yields two entries
under the list's class: both links equal the first term's own permalink
(the second term inherits the most recently seen one), and the first
term's description is the synthetic string `see <name>` built from the
last term's displayed name. -/
theorem shared_description_inherits_link (url : String) (dl : DLE)
    (dt1 dt2 : DTE) (h : String) (nm : String)
    (hdts : dl.dts = [dt1, dt2]) (h1 : dt1.href = some h)
    (h2 : dt2.href = none) (hnm : findTT dt2 = some nm)
    (hid : dt2.id ≠ some "id") :
    (defsFor (getDefs url [dl] ExtState.start) dl.cls).map EItems.link =
      [url ++ h, url ++ h] ∧
    ((defsFor (getDefs url [dl] ExtState.start) dl.cls).head?.map
        EItems.description) = some ("see " ++ nm) := by
  have hne : ¬ ((some "id" : Option String) = dt2.id) := fun hq => hid hq.symm
  simp [getDefs, procDL, hdts, procDT, mkEntry, lookupO, setO, ECache.empty,
    ExtState.start, addToClass, defsFor, pyStr, h1, h2, hnm, hne,
    List.lookup, List.head?]

/-- Witness for C9 on the concrete two-term definition list
`sharedDl`. -/
theorem shared_description_inherits_link_w :
    (defsFor (getDefs "U" [sharedDl] ExtState.start) sharedDl.cls).map
        EItems.link = ["U" ++ "#t1", "U" ++ "#t1"] ∧
    ((defsFor (getDefs "U" [sharedDl] ExtState.start) sharedDl.cls).head?.map
        EItems.description) = some ("see " ++ "term2") :=
  shared_description_inherits_link "U" sharedDl termOne termTwo "#t1" "term2"
    rfl rfl rfl rfl (by decide)
